import Mathlib

/-!
Verification development for the Arcadegent web client and its
session-run orchestration contract.

The first half of this file is a shallow embedding of the TypeScript
sources under `apps/web/src` (`types.ts`, `api/client.ts`, `App.tsx`).
The second half models, from the written design, the backend components
(session store, event log, subagent router, run orchestrator) whose
implementation is not part of the shipped sources; those definitions are
marked `Modelled from the spec`.
-/

namespace Arcadegent

/-! ## Event names (`types.ts`, `ChatStreamEventName`) -/

/-- The closed set of run-progress event names, from `types.ts`. -/
inductive ChatStreamEventName
  | sessionStarted
  | subagentChanged
  | assistantToken
  | toolStarted
  | toolProgress
  | toolCompleted
  | toolFailed
  | navigationRouteReady
  | assistantCompleted
  | sessionFailed
deriving DecidableEq, Repr

/-- The wire name of each event, exactly as the string union in `types.ts`. -/
def ChatStreamEventName.toName : ChatStreamEventName → String
  | .sessionStarted => "session.started"
  | .subagentChanged => "subagent.changed"
  | .assistantToken => "assistant.token"
  | .toolStarted => "tool.started"
  | .toolProgress => "tool.progress"
  | .toolCompleted => "tool.completed"
  | .toolFailed => "tool.failed"
  | .navigationRouteReady => "navigation.route_ready"
  | .assistantCompleted => "assistant.completed"
  | .sessionFailed => "session.failed"

/-- The list of event names the client subscribes to, in the order of the
`STREAM_EVENT_NAMES` constant in `App.tsx`. -/
def STREAM_EVENT_NAMES : List ChatStreamEventName :=
  [ .sessionStarted
  , .subagentChanged
  , .assistantToken
  , .toolStarted
  , .toolProgress
  , .toolCompleted
  , .toolFailed
  , .navigationRouteReady
  , .assistantCompleted
  , .sessionFailed ]

/-! ## Turns (`types.ts`, `ChatHistoryTurn`) -/

/-- Turn roles, from the `"user" | "assistant" | "tool"` union in `types.ts`. -/
inductive Role
  | user
  | assistant
  | tool
deriving DecidableEq, Repr

/-- One transcript turn, from `ChatHistoryTurn` in `types.ts`. -/
structure ChatHistoryTurn where
  role : Role
  content : String
  name : Option String := none
  call_id : Option String := none
  created_at : String := ""
deriving DecidableEq, Repr

/-- `toVisibleTurns` from `App.tsx`: keep turns whose role is
`user` or `assistant`. -/
def toVisibleTurns (turns : List ChatHistoryTurn) : List ChatHistoryTurn :=
  turns.filter (fun turn => turn.role == .user || turn.role == .assistant)

/-! ## URL building (`api/client.ts`, `buildUrl`) -/

/-- A query value as passed to `buildUrl`:
`string | number | boolean | undefined | null`.
Numbers in the call sites are integral (page indices, page sizes). -/
inductive QueryValue
  | str (s : String)
  | num (n : Int)
  | bool (b : Bool)
  | undef
  | null
deriving DecidableEq, Repr

/-- JavaScript string coercion of a query value, as both the template
literal and the call of the string constructor in `buildUrl` produce. -/
def QueryValue.jsString : QueryValue → String
  | .str s => s
  | .num n => toString n
  | .bool b => if b then "true" else "false"
  | .undef => "undefined"
  | .null => "null"

/-- The search parameters produced by `buildUrl` for a query record: a key
is included exactly when its value is neither `undefined` nor `null` and
its string form is non-empty, and the parameter's value is that string
form. The query record's keys are distinct (it is a TypeScript record). -/
def buildUrlParams (query : List (String × QueryValue)) : List (String × String) :=
  query.filterMap (fun kv =>
    if kv.2 ≠ .undef ∧ kv.2 ≠ .null ∧ 0 < kv.2.jsString.length then
      some (kv.1, kv.2.jsString)
    else
      none)

/-! ## Fetch (`api/client.ts`, `fetchJson`) -/

/-- A JSON value, the parse result of a response body. -/
inductive Json
  | null
  | bool (b : Bool)
  | num (n : Int)
  | str (s : String)
  | arr (elems : List Json)
  | obj (fields : List (String × Json))

/-- The part of a fetch response that `fetchJson` inspects: the `ok`
flag, the numeric status, and the outcome of the body's JSON parse
(the promise returned by the response's `json()` method, which rejects
when the body is not valid JSON). -/
structure HttpResponse where
  ok : Bool
  status : Nat
  body : Except String Json

/-- `fetchJson` from `api/client.ts`: on a non-ok response it throws an
error whose message interpolates the status and the url; otherwise it
returns the outcome of parsing the body as JSON. -/
def fetchJson (url : String) (resp : HttpResponse) : Except String Json :=
  if !resp.ok then
    Except.error ("HTTP " ++ toString resp.status ++ ": " ++ url)
  else
    resp.body

/-- `needle` occurs contiguously inside `hay`. -/
def strContains (hay needle : String) : Prop :=
  ∃ before after, hay = before ++ needle ++ after

/-! ## Stream envelopes and the progress list (`App.tsx`) -/

/-- A dynamically-typed field of an envelope's `data` record:
a string, `null`, or some other JSON value. -/
inductive JVal
  | str (s : String)
  | nullv
  | other
deriving DecidableEq, Repr

/-- The fields of an envelope's `data` payload that the client handler
reads; `none` models an absent (`undefined`) field. -/
structure EnvelopeData where
  tool : Option JVal := none
  to_subagent : Option JVal := none
  active_subagent : Option JVal := none
deriving DecidableEq, Repr

/-- A well-formed stream envelope, from `ChatStreamEnvelope` in
`types.ts`; the client handler discards frames failing its shape guards
before reaching any of the code modelled below. -/
structure ChatStreamEnvelope where
  id : Int
  session_id : String
  event : ChatStreamEventName
  at_ : String
  data : EnvelopeData
deriving DecidableEq, Repr

/-- One retained progress entry, from `StreamProgressItem` in `App.tsx`. -/
structure StreamProgressItem where
  id : Int
  event : ChatStreamEventName
  text : String
  at_ : String
deriving DecidableEq, Repr

/-- The `SUBAGENT_LABEL` record in `App.tsx`. -/
def SUBAGENT_LABEL : String → Option String
  | "intent_router" => some "意图路由"
  | "search_agent" => some "检索阶段"
  | "navigation_agent" => some "导航阶段"
  | "summary_agent" => some "总结阶段"
  | _ => none

/-- The `TOOL_LABEL` record in `App.tsx`. -/
def TOOL_LABEL : String → Option String
  | "db_query_tool" => some "数据检索"
  | "geo_resolve_tool" => some "位置解析"
  | "route_plan_tool" => some "路线规划"
  | "summary_tool" => some "结果总结"
  | "select_next_subagent" => some "阶段选择"
  | _ => none

/-- `formatSubagentLabel` from `App.tsx`; both `null` and the empty
string are falsy in the guard. -/
def formatSubagentLabel (subagent : Option String) : String :=
  match subagent with
  | none => "等待阶段信号"
  | some s => if s = "" then "等待阶段信号" else (SUBAGENT_LABEL s).getD s

/-- `formatToolLabel` from `App.tsx`; both `undefined` and the empty
string are falsy in the guard. -/
def formatToolLabel (toolName : Option String) : String :=
  match toolName with
  | none => "工具"
  | some s => if s = "" then "工具" else (TOOL_LABEL s).getD s

/-- A `data` field holding a string, as the `typeof` check selects. -/
def strField : Option JVal → Option String
  | some (.str s) => some s
  | _ => none

/-- The nullish-coalescing operator on `data` fields: the right operand
is used when the left is absent or `null`. -/
def coalesce : Option JVal → Option JVal → Option JVal
  | none, b => b
  | some .nullv, b => b
  | some v, _ => some v

/-- `toProgressText` from `App.tsx`. -/
def toProgressText (envelope : ChatStreamEnvelope) : String :=
  let toolName := strField envelope.data.tool
  match envelope.event with
  | .sessionStarted => "会话开始"
  | .subagentChanged =>
      let next := strField (coalesce envelope.data.to_subagent envelope.data.active_subagent)
      "切换到 " ++ formatSubagentLabel next
  | .assistantToken => "正在生成回复"
  | .toolStarted => formatToolLabel toolName ++ " 执行中"
  | .toolProgress => formatToolLabel toolName ++ " 处理中"
  | .toolCompleted => formatToolLabel toolName ++ " 已完成"
  | .toolFailed => formatToolLabel toolName ++ " 失败"
  | .navigationRouteReady => "路线已生成"
  | .assistantCompleted => "最终回复已生成"
  | .sessionFailed => "会话执行失败"

/-- The progress entry built for an envelope inside `pushStreamEnvelope`. -/
def mkStreamItem (envelope : ChatStreamEnvelope) : StreamProgressItem :=
  { id := envelope.id
  , event := envelope.event
  , text := toProgressText envelope
  , at_ := envelope.at_ }

/-- `pushStreamEnvelope` from `App.tsx`: drop any previous entry with the
same id, keep the last seven of the rest, and append the new entry.
The JavaScript slice with a negative start is the drop of all but the
last seven elements. -/
def pushStreamEnvelope (previous : List StreamProgressItem)
    (envelope : ChatStreamEnvelope) : List StreamProgressItem :=
  let next := mkStreamItem envelope
  let filtered := previous.filter (fun item => item.id != envelope.id)
  filtered.drop (filtered.length - 7) ++ [next]

/-! ## The client's stream state machine (`App.tsx`, `startStream`) -/

/-- The client-side stream state: whether the `EventSource` created by
`startStream` is still open, the retained progress entries, and the
active-subagent indicator. -/
structure ClientStreamState where
  streamLive : Bool
  items : List StreamProgressItem
  activeSubagent : Option String
deriving DecidableEq, Repr

/-- `true` exactly on the two terminal event names. -/
def isTerminalName (e : ChatStreamEventName) : Bool :=
  e == .assistantCompleted || e == .sessionFailed

/-- `handleEvent` from `App.tsx`, on a well-formed envelope: update the
active subagent on `session.started` and `subagent.changed`, push the
progress entry, and on a terminal event call `stopStream`, which closes
the `EventSource`. -/
def handleEvent (st : ClientStreamState) (envelope : ChatStreamEnvelope) :
    ClientStreamState :=
  let st1 :=
    if envelope.event == .sessionStarted then
      match strField envelope.data.active_subagent with
      | some s => if s ≠ "" then { st with activeSubagent := some s } else st
      | none => st
    else st
  let st2 :=
    if envelope.event == .subagentChanged then
      match strField (coalesce envelope.data.to_subagent envelope.data.active_subagent) with
      | some s => if s ≠ "" then { st1 with activeSubagent := some s } else st1
      | none => st1
    else st1
  let st3 := { st2 with items := pushStreamEnvelope st2.items envelope }
  if isTerminalName envelope.event then
    { st3 with streamLive := false }
  else
    st3

/-- One delivery step of the client stream: a closed `EventSource`
dispatches no listener calls, so the state is unchanged once the stream
has been stopped. -/
def clientStep (st : ClientStreamState) (envelope : ChatStreamEnvelope) :
    ClientStreamState :=
  if st.streamLive then handleEvent st envelope else st

/-! ## The subagent router, modelled from the spec (design §4.3)

The backend implementation is not part of the shipped sources; the
definitions below are built from the design document's state machine. -/

/-- Modelled from the spec: the closed intent set of the submit-message
interface (`search`, `search_nearby`, `navigate`), as in design §6 and
the `IntentType` union of `types.ts`. -/
inductive Intent
  | search
  | searchNearby
  | navigate
deriving DecidableEq, Repr, Fintype

/-- Modelled from the spec: the router states of design §4.3 —
`intent_router` (initial), the three content stages, and the two
terminal states. -/
inductive Stage
  | intentRouter
  | searchAgent
  | navigationAgent
  | summaryAgent
  | done
  | failed
deriving DecidableEq, Repr, Fintype

/-- `true` on the two terminal router states. -/
def Stage.isTerminal : Stage → Bool
  | .done => true
  | .failed => true
  | _ => false

/-- Modelled from the spec: the external-capability outcomes one run can
observe, missing from the sources — the classification result (`none`
when ambiguous or missing, defaulting to the search stage), and whether
each stage's required capability fails unrecoverably. -/
structure RunEnv where
  classified : Option Intent
  classifyFatal : Bool
  contentFatal : Bool
  summaryFatal : Bool
deriving DecidableEq, Repr, Fintype

/-- Modelled from the spec: the transition rule of design §4.3 as a pure
function. `intent_router` maps search intents (and the ambiguous
default) to the search stage and the navigation intent to the
navigation stage; each content stage hands off to `summary_agent`;
`summary_agent` completes the run; an unrecoverable capability failure
at any stage transitions to `failed`; terminal states are absorbing. -/
def stepStage (env : RunEnv) : Stage → Stage
  | .intentRouter =>
      if env.classifyFatal then .failed
      else
        match env.classified with
        | some .navigate => .navigationAgent
        | _ => .searchAgent
  | .searchAgent => if env.contentFatal then .failed else .summaryAgent
  | .navigationAgent => if env.contentFatal then .failed else .summaryAgent
  | .summaryAgent => if env.summaryFatal then .failed else .done
  | .done => .done
  | .failed => .failed

/-- The states visited from `start`, stopping at a terminal state or
after `fuel` transitions; four transitions always suffice. -/
def routerSteps (env : RunEnv) : Nat → Stage → List Stage
  | 0, s => [s]
  | fuel + 1, s =>
      if s.isTerminal then [s]
      else s :: routerSteps env fuel (stepStage env s)

/-- The full path of one run, from `intent_router`. -/
def routerPath (env : RunEnv) : List Stage :=
  routerSteps env 4 .intentRouter

/-- The state a run ends in. -/
def runRouter (env : RunEnv) : Stage :=
  (routerPath env).getLastD .failed

/-- The terminal event a run publishes: `assistant.completed` on
success, `session.failed` otherwise. -/
def terminalEvent (env : RunEnv) : ChatStreamEventName :=
  if runRouter env = .done then .assistantCompleted else .sessionFailed

/-- Modelled from the spec: the event names one run publishes in order
(design §4.5) — `session.started`, a `subagent.changed` frame per
transition into a content stage, then exactly one terminal frame. -/
def runEvents (env : RunEnv) : List ChatStreamEventName :=
  .sessionStarted ::
    (((routerPath env).drop 1).filter (fun s => !s.isTerminal)).map
      (fun _ => .subagentChanged)
    ++ [terminalEvent env]

/-! ## The run orchestrator, modelled from the spec (design §4.5) -/

/-- Modelled from the spec: the error taxonomy entries the orchestrator
itself raises on entry (design §7); the one relevant here is the
fail-fast rejection of a second concurrent run. -/
inductive RunError
  | concurrencyConflict
deriving DecidableEq, Repr

/-- Modelled from the spec: a stored session — id, ordered turn list,
most recent stage, and whether a run currently holds the session's run
lock (design §3). -/
structure SpecSession where
  session_id : String
  turns : List ChatHistoryTurn := []
  active_subagent : Option Stage := none
  running : Bool := false
deriving DecidableEq, Repr

/-- Modelled from the spec: acquiring the per-session run lock — fails
fast with `ConcurrencyConflict` and leaves the session untouched when a
run is already active (design §4.5 step 2). -/
def acquireRun (s : SpecSession) : SpecSession × Except RunError Unit :=
  if s.running then (s, Except.error .concurrencyConflict)
  else ({ s with running := true }, Except.ok ())

/-- Modelled from the spec: the body of a run once the lock is held —
drive the router, then append the user turn and exactly one
assistant-role turn (the reply on success, the failure-facing reply
otherwise), record the final stage, and release the lock
(design §4.5 steps 3-6). -/
def finishRun (env : RunEnv) (message reply failReply now : String)
    (s : SpecSession) : SpecSession × Except RunError (List ChatStreamEventName) :=
  let success := runRouter env = Stage.done
  ( { s with
        running := false
      , active_subagent := some (runRouter env)
      , turns := s.turns ++
          [ { role := .user, content := message, created_at := now }
          , { role := .assistant
            , content := if success then reply else failReply
            , created_at := now } ] }
  , Except.ok (runEvents env) )

/-- Modelled from the spec: `runTurn`, the orchestrator's only external
operation — take the run lock or fail fast, then run to a terminal
outcome (design §4.5). -/
def runTurn (env : RunEnv) (message reply failReply now : String)
    (s : SpecSession) : SpecSession × Except RunError (List ChatStreamEventName) :=
  match acquireRun s with
  | (s1, Except.error e) => (s1, Except.error e)
  | (s1, Except.ok ()) => finishRun env message reply failReply now s1

/-! ## The event log, modelled from the spec (design §4.2) -/

/-- Modelled from the spec: one stored event of a session's log — the
per-session id and the event name (design §3). -/
structure SpecEvent where
  id : Nat
  name : ChatStreamEventName
deriving DecidableEq, Repr

/-- Modelled from the spec: `publish` allocates the next id for the
session — ids start at 1 and increase by one per append (design §4.2). -/
def publish (log : List SpecEvent) (name : ChatStreamEventName) : List SpecEvent :=
  log ++ [{ id := log.length + 1, name := name }]

/-- A session log built by publishing the given event names in order,
starting from the empty log. -/
def buildLog (names : List ChatStreamEventName) : List SpecEvent :=
  names.foldl publish []

/-- Modelled from the spec: the events a subscriber with resume id
`after` observes — every stored event with id greater than `after`, in
log order (design §4.2). -/
def subscribeFrom (log : List SpecEvent) (after : Nat) : List SpecEvent :=
  log.filter (fun ev => after < ev.id)

/-! ## The search stage's tool calls, modelled from the spec (§4.3-4.4)
and the search-stage instruction text shipped with the sources. -/

/-- Modelled from the spec: the filter set of one structured-search tool
call (design §6 submit-message hints and the search-stage instruction
text). -/
structure SearchFilters where
  keyword : Option String := none
  province : Option String := none
  city : Option String := none
  county : Option String := none
  pageSize : Option Nat := none
deriving DecidableEq, Repr

/-- Modelled from the spec: a tool call the search stage can issue — a
structured-search query with a filter set, or a summarization call
carrying whether the payload is the zero-result payload and the
candidate count. -/
inductive StageToolCall
  | dbQuery (filters : SearchFilters)
  | summaryCall (zeroResult : Bool) (candidateCount : Nat)
deriving DecidableEq, Repr

/-- Modelled from the spec: the tool calls one structured-search stage
issues given the candidates its single query returned — one search call,
then one summarization call whose payload records the (possibly zero)
result; on zero candidates it does not re-query the same filters
(design §4.3 edge case; search-stage instruction rule 6). -/
def searchStageToolCalls (filters : SearchFilters) (candidates : List String) :
    List StageToolCall :=
  [ StageToolCall.dbQuery filters
  , StageToolCall.summaryCall candidates.isEmpty candidates.length ]

/-! ## Helper lemmas -/

theorem chain_succ_range (n : Nat) : ∀ s : Nat,
    List.Chain' (fun a b => b = a + 1) (List.range' s n) := by
  induction n with
  | zero => intro s; simp
  | succ k ih =>
      intro s
      rw [List.range'_succ]
      rcases k with _ | k2
      · simp
      · rw [List.chain'_cons']
        refine ⟨?_, ih (s + 1)⟩
        intro y hy
        rw [List.range'_succ] at hy
        simp only [List.head?_cons, Option.mem_def, Option.some.injEq] at hy
        omega

theorem foldl_publish_ids (names : List ChatStreamEventName) :
    ∀ log : List SpecEvent, log.map SpecEvent.id = List.range' 1 log.length →
      (names.foldl publish log).map SpecEvent.id
        = List.range' 1 (log.length + names.length) := by
  induction names with
  | nil => intro log h; simpa using h
  | cons nm rest ih =>
      intro log h
      have hlen : (publish log nm).length = log.length + 1 := by
        simp [publish]
      have h2 : (publish log nm).map SpecEvent.id
          = List.range' 1 ((publish log nm).length) := by
        rw [hlen, List.range'_concat]
        simp [publish, h]
        omega
      have h3 := ih (publish log nm) h2
      rw [hlen] at h3
      simp only [List.foldl_cons]
      rw [h3]
      congr 1
      simp [List.length_cons]
      omega

theorem buildLog_ids (names : List ChatStreamEventName) :
    (buildLog names).map SpecEvent.id = List.range' 1 names.length := by
  have h := foldl_publish_ids names [] (by simp)
  simpa [buildLog] using h

theorem filter_lt_range (after : Nat) : ∀ n : Nat,
    (List.range' 1 n).filter (fun i => decide (after < i))
      = List.range' (after + 1) (n - after) := by
  intro n
  induction n with
  | zero => simp
  | succ k ih =>
      rw [List.range'_concat, List.filter_append, ih]
      by_cases h : after < k + 1
      · have hs : (List.filter (fun i => decide (after < i)) [1 + 1 * k]) = [k + 1] := by
          have : 1 + 1 * k = k + 1 := by omega
          rw [this]
          simp [h]
        rw [hs]
        have hk : k + 1 - after = (k - after) + 1 := by omega
        rw [hk, List.range'_concat]
        congr 2
        omega
      · have hs : (List.filter (fun i => decide (after < i)) [1 + 1 * k]) = [] := by
          have : 1 + 1 * k = k + 1 := by omega
          rw [this]
          simp [h]
        rw [hs]
        have h1 : k - after = 0 := by omega
        have h2 : k + 1 - after = 0 := by omega
        simp [h1, h2]

theorem subscribeFrom_map_id (log : List SpecEvent) (after : Nat) :
    (subscribeFrom log after).map SpecEvent.id
      = (log.map SpecEvent.id).filter (fun i => decide (after < i)) := by
  induction log with
  | nil => simp [subscribeFrom]
  | cons ev rest ih =>
      by_cases h : after < ev.id
      · simp [subscribeFrom, List.filter_cons, h] at ih ⊢
        exact ih
      · simp [subscribeFrom, List.filter_cons, h] at ih ⊢
        exact ih

theorem subscribeFrom_buildLog_ids (names : List ChatStreamEventName) (after : Nat) :
    (subscribeFrom (buildLog names) after).map SpecEvent.id
      = List.range' (after + 1) (names.length - after) := by
  rw [subscribeFrom_map_id, buildLog_ids, filter_lt_range]

theorem pushStreamEnvelope_nodup (l : List StreamProgressItem)
    (envelope : ChatStreamEnvelope)
    (h : (l.map StreamProgressItem.id).Nodup) :
    ((pushStreamEnvelope l envelope).map StreamProgressItem.id).Nodup := by
  unfold pushStreamEnvelope
  simp only [List.map_append, List.map_cons, List.map_nil]
  rw [List.nodup_append]
  refine ⟨?_, by simp, ?_⟩
  · have hsub : List.Sublist
        ((l.filter (fun item => item.id != envelope.id)).drop
          ((l.filter (fun item => item.id != envelope.id)).length - 7)) l :=
      (List.drop_sublist _ _).trans (List.filter_sublist l)
    exact h.sublist (hsub.map _)
  · intro x hx hy
    simp only [List.mem_singleton, mkStreamItem] at hy
    simp only [List.mem_map] at hx
    obtain ⟨item, hitem, hid⟩ := hx
    have hmem : item ∈ l.filter (fun item => item.id != envelope.id) :=
      List.mem_of_mem_drop hitem
    have hne := (List.mem_filter.mp hmem).2
    simp only [bne_iff_ne, ne_eq] at hne
    exact hne (by rw [hid, hy])

theorem foldl_push_nodup (es : List ChatStreamEnvelope) :
    ∀ l : List StreamProgressItem, (l.map StreamProgressItem.id).Nodup →
      (((es.foldl pushStreamEnvelope l).map StreamProgressItem.id).Nodup) := by
  induction es with
  | nil => intro l h; simpa using h
  | cons e rest ih =>
      intro l h
      exact ih (pushStreamEnvelope l e) (pushStreamEnvelope_nodup l e h)

/-- Claim C1: for every session, the event ids any subscriber observes
are strictly increasing with no gaps and no duplicates (ids start at 1
for a subscriber connected from the beginning), and after the client
handler `pushStreamEnvelope` processes any sequence of envelopes the
retained progress list never contains two items with the same id. -/
theorem c1_event_ids_monotone_and_progress_nodup
    (names : List ChatStreamEventName) (after : Nat)
    (es : List ChatStreamEnvelope) :
    ((subscribeFrom (buildLog names) after).map SpecEvent.id).Nodup ∧
    List.Chain' (fun a b => b = a + 1)
      ((subscribeFrom (buildLog names) after).map SpecEvent.id) ∧
    ((subscribeFrom (buildLog names) after).map SpecEvent.id).Pairwise (· < ·) ∧
    (subscribeFrom (buildLog names) 0).map SpecEvent.id
      = List.range' 1 names.length ∧
    ((es.foldl pushStreamEnvelope []).map StreamProgressItem.id).Nodup := by
  have hids := subscribeFrom_buildLog_ids names after
  have hchain : List.Chain' (fun a b => b = a + 1)
      ((subscribeFrom (buildLog names) after).map SpecEvent.id) := by
    rw [hids]; exact chain_succ_range _ _
  refine ⟨?_, hchain, ?_, ?_, ?_⟩
  · rw [hids]; exact List.nodup_range' _ _
  · have hlt : List.Chain' (· < ·)
        ((subscribeFrom (buildLog names) after).map SpecEvent.id) := by
      refine hchain.imp ?_
      intro a b hab
      omega
    exact List.chain'_iff_pairwise.mp hlt
  · have h0 := subscribeFrom_buildLog_ids names 0
    simpa using h0
  · exact foldl_push_nodup es [] (by simp)

theorem runEvents_terminal_count (env : RunEnv) :
    (runEvents env).countP isTerminalName = 1 := by
  revert env; decide

theorem runEvents_getLast (env : RunEnv) :
    (runEvents env).getLast? = some (terminalEvent env) := by
  revert env; decide

theorem terminalEvent_cases (env : RunEnv) :
    terminalEvent env = ChatStreamEventName.assistantCompleted ∨
      terminalEvent env = ChatStreamEventName.sessionFailed := by
  unfold terminalEvent
  by_cases h : runRouter env = Stage.done <;> simp [h]

theorem runEvents_terminal_is_last (env : RunEnv) :
    ((runEvents env).takeWhile (fun e => !isTerminalName e))
        ++ [terminalEvent env] = runEvents env := by
  revert env; decide

theorem runTurn_not_running (env : RunEnv) (message reply failReply now : String)
    (s : SpecSession) (h : s.running = false) :
    runTurn env message reply failReply now s
      = finishRun env message reply failReply now { s with running := true } := by
  simp [runTurn, acquireRun, h]

/-- Claim C2: every run terminates in exactly one of the two terminal
events `assistant.completed` or `session.failed` (exactly one terminal
frame, and it is the last frame published), and in both the success and
the failure case exactly one new assistant-role turn is appended, so
the stored transcript ends with an assistant turn rather than a
dangling user message. -/
theorem c2_run_terminates_with_one_assistant_turn
    (env : RunEnv) (message reply failReply now : String) (s : SpecSession)
    (h : s.running = false) :
    (runTurn env message reply failReply now s).2 = Except.ok (runEvents env) ∧
    (runEvents env).countP isTerminalName = 1 ∧
    ((runEvents env).getLast? = some ChatStreamEventName.assistantCompleted ∨
      (runEvents env).getLast? = some ChatStreamEventName.sessionFailed) ∧
    (runTurn env message reply failReply now s).1.turns.countP
        (fun t => t.role == Role.assistant)
      = s.turns.countP (fun t => t.role == Role.assistant) + 1 ∧
    ((runTurn env message reply failReply now s).1.turns.getLast?.map
        ChatHistoryTurn.role) = some Role.assistant := by
  rw [runTurn_not_running env message reply failReply now s h]
  refine ⟨rfl, runEvents_terminal_count env, ?_, ?_, ?_⟩
  · rcases terminalEvent_cases env with hc | hc
    · exact Or.inl (by rw [runEvents_getLast, hc])
    · exact Or.inr (by rw [runEvents_getLast, hc])
  · simp [finishRun, List.countP_append, List.countP_cons]
  · simp [finishRun, List.getLast?_append]

/-- Claim C3: when two `runTurn` calls race on the same session, the one
that takes the run lock proceeds to a terminal outcome while the other
fails fast with `ConcurrencyConflict`, leaving the session — in
particular its stored turns — unchanged. -/
theorem c3_concurrent_runTurn_conflict
    (env : RunEnv) (message reply failReply now : String) (s : SpecSession)
    (h : s.running = false) :
    (acquireRun s).2 = Except.ok () ∧
    (acquireRun s).1.running = true ∧
    (runTurn env message reply failReply now (acquireRun s).1).2
      = Except.error RunError.concurrencyConflict ∧
    (runTurn env message reply failReply now (acquireRun s).1).1
      = (acquireRun s).1 ∧
    (runTurn env message reply failReply now (acquireRun s).1).1.turns
      = s.turns ∧
    (runTurn env message reply failReply now s).2 = Except.ok (runEvents env) := by
  refine ⟨by simp [acquireRun, h], by simp [acquireRun, h], ?_, ?_, ?_, ?_⟩
  · simp [acquireRun, h, runTurn]
  · simp [acquireRun, h, runTurn]
  · simp [acquireRun, h, runTurn]
  · rw [runTurn_not_running env message reply failReply now s h]; rfl

/-- Claim C4: a structured-search stage that receives zero candidates
issues exactly one summarization tool call — carrying the zero-result
payload, as the stage's final call — and zero search tool calls with
the same filter set beyond its single original query, and the stage
transitions straight to `summary_agent`. -/
theorem c4_zero_candidates_single_summary (filters : SearchFilters)
    (env : RunEnv) (h : env.contentFatal = false) :
    (searchStageToolCalls filters []).countP
        (fun c => match c with
          | StageToolCall.summaryCall _ _ => true
          | _ => false) = 1 ∧
    (searchStageToolCalls filters []).countP
        (fun c => c == StageToolCall.dbQuery filters) = 1 ∧
    (searchStageToolCalls filters []).getLast?
      = some (StageToolCall.summaryCall true 0) ∧
    stepStage env Stage.searchAgent = Stage.summaryAgent := by
  refine ⟨rfl, ?_, rfl, by simp [stepStage, h]⟩
  simp [searchStageToolCalls, List.countP_cons]

theorem clientStep_of_stopped (st : ClientStreamState)
    (envelope : ChatStreamEnvelope) (h : st.streamLive = false) :
    clientStep st envelope = st := by
  simp [clientStep, h]

theorem foldl_clientStep_stopped (es : List ChatStreamEnvelope) :
    ∀ st : ClientStreamState, st.streamLive = false →
      es.foldl clientStep st = st := by
  induction es with
  | nil => intro st h; rfl
  | cons e rest ih =>
      intro st h
      simp only [List.foldl_cons, clientStep_of_stopped st e h]
      exact ih st h

theorem handleEvent_terminal (st : ClientStreamState)
    (envelope : ChatStreamEnvelope) (h : isTerminalName envelope.event = true) :
    (handleEvent st envelope).streamLive = false := by
  simp [handleEvent, h]

/-- Claim C5: once a terminal envelope (`assistant.completed` or
`session.failed`) is processed, the client closes its `EventSource`
immediately, so no later envelope mutates the stream state; and on the
publishing side every frame a run publishes before its terminal frame
is non-terminal — the terminal frame ends the run's stream. -/
theorem c5_terminal_event_closes_stream (st : ClientStreamState)
    (envelope : ChatStreamEnvelope) (h : isTerminalName envelope.event = true) :
    (clientStep st envelope).streamLive = false ∧
    (∀ es : List ChatStreamEnvelope,
      es.foldl clientStep (clientStep st envelope) = clientStep st envelope) ∧
    (∀ env : RunEnv,
      ((runEvents env).takeWhile (fun e => !isTerminalName e))
          ++ [terminalEvent env] = runEvents env) := by
  have hstop : (clientStep st envelope).streamLive = false := by
    by_cases hl : st.streamLive
    · simp only [clientStep, hl, if_true]
      exact handleEvent_terminal st envelope h
    · simp only [clientStep, hl, if_false]
      simpa using hl
  exact ⟨hstop,
    fun es => foldl_clientStep_stopped es (clientStep st envelope) hstop,
    runEvents_terminal_is_last⟩

/-- Claim C6: the run-progress stream's event names form the closed
ten-element set of the design, and the client subscribes to exactly
these ten names — `STREAM_EVENT_NAMES` lists each event name of the
closed enum exactly once, in the source's order. -/
theorem c6_closed_event_name_set :
    STREAM_EVENT_NAMES.map ChatStreamEventName.toName
      = [ "session.started", "subagent.changed", "assistant.token",
          "tool.started", "tool.progress", "tool.completed", "tool.failed",
          "navigation.route_ready", "assistant.completed", "session.failed" ] ∧
    STREAM_EVENT_NAMES.length = 10 ∧
    STREAM_EVENT_NAMES.Nodup ∧
    ∀ e : ChatStreamEventName, e ∈ STREAM_EVENT_NAMES := by
  refine ⟨rfl, rfl, by decide, ?_⟩
  intro e
  cases e <;> simp [STREAM_EVENT_NAMES]

/-- Claim C7: `toVisibleTurns` returns exactly the subsequence of turns
whose role is `user` or `assistant`, in the original order — tool-role
turns and only tool-role turns are removed. -/
theorem c7_toVisibleTurns_filters_tool_turns (turns : List ChatHistoryTurn) :
    toVisibleTurns turns = turns.filter (fun t => !(t.role == Role.tool)) ∧
    List.Sublist (toVisibleTurns turns) turns ∧
    ∀ t : ChatHistoryTurn,
      t ∈ toVisibleTurns turns ↔ t ∈ turns ∧ t.role ≠ Role.tool := by
  have hcongr : toVisibleTurns turns
      = turns.filter (fun t => !(t.role == Role.tool)) := by
    unfold toVisibleTurns
    refine List.filter_congr ?_
    intro t _
    cases ht : t.role <;> simp [ht]
  refine ⟨hcongr, ?_, ?_⟩
  · rw [hcongr]; exact List.filter_sublist turns
  · intro t
    rw [hcongr, List.mem_filter]
    simp

theorem string_length_pos_iff (s : String) : 0 < s.length ↔ s ≠ "" := by
  constructor
  · intro hlen heq
    subst heq
    exact absurd hlen (by decide)
  · intro hne
    cases s with
    | mk data =>
        cases data with
        | nil => exact absurd rfl hne
        | cons c cs => simp [String.length]

/-- Claim C8: `buildUrl` includes a search parameter for exactly those
query keys whose value is neither `undefined` nor `null` and whose
string form is non-empty, and each included parameter's value is the
string form of the given value. -/
theorem c8_buildUrl_param_inclusion (query : List (String × QueryValue))
    (key val : String) :
    (key, val) ∈ buildUrlParams query ↔
      ∃ v : QueryValue, (key, v) ∈ query ∧ v ≠ QueryValue.undef ∧
        v ≠ QueryValue.null ∧ v.jsString ≠ "" ∧ val = v.jsString := by
  unfold buildUrlParams
  rw [List.mem_filterMap]
  constructor
  · rintro ⟨⟨k, v⟩, hmem, hv⟩
    by_cases hc : v ≠ QueryValue.undef ∧ v ≠ QueryValue.null ∧ 0 < v.jsString.length
    · rw [if_pos hc] at hv
      have hpair : (k, v.jsString) = (key, val) := Option.some.inj hv
      have hk : k = key := congrArg Prod.fst hpair
      have hval : v.jsString = val := congrArg Prod.snd hpair
      subst hk
      exact ⟨v, hmem, hc.1, hc.2.1,
        (string_length_pos_iff v.jsString).mp hc.2.2, hval.symm⟩
    · rw [if_neg hc] at hv
      exact absurd hv (by simp)
  · rintro ⟨v, hmem, hu, hn, hs, hval⟩
    refine ⟨(key, v), hmem, ?_⟩
    rw [if_pos ⟨hu, hn, (string_length_pos_iff v.jsString).mpr hs⟩, hval]

/-- Claim C9 counterexample: an ok response whose body fails to parse as
JSON makes `fetchJson` throw even though the status is ok, so "throws if
and only if the status is non-ok" fails at this input. -/
theorem c9_fetchJson_counterexample :
    (∃ e, fetchJson "http://localhost:8000/api/v1/arcades"
        { ok := true, status := 200, body := Except.error "invalid json" }
      = Except.error e) ∧
    ({ ok := true, status := 200, body := Except.error "invalid json" }
        : HttpResponse).ok ≠ false :=
  ⟨⟨"invalid json", rfl⟩, by decide⟩

/-- Claim C9 as amended: `fetchJson` throws on every non-ok response,
with a message containing the status code and the requested URL; on an
ok response it returns the outcome of parsing the body as JSON, so it
throws exactly when the status is non-ok or the ok-response body fails
to parse. -/
theorem c9_fetchJson_amended (url : String) (resp : HttpResponse) :
    (resp.ok = false →
      fetchJson url resp
          = Except.error ("HTTP " ++ toString resp.status ++ ": " ++ url) ∧
      strContains ("HTTP " ++ toString resp.status ++ ": " ++ url)
        (toString resp.status) ∧
      strContains ("HTTP " ++ toString resp.status ++ ": " ++ url) url) ∧
    (resp.ok = true → fetchJson url resp = resp.body) ∧
    ((∃ e, fetchJson url resp = Except.error e) ↔
      resp.ok = false ∨ ∃ e, resp.body = Except.error e) := by
  refine ⟨?_, ?_, ?_⟩
  · intro hok
    refine ⟨by simp [fetchJson, hok], ?_, ?_⟩
    · exact ⟨"HTTP ", ": " ++ url, by simp [String.append_assoc]⟩
    · exact ⟨"HTTP " ++ toString resp.status ++ ": ", "", by
        simp [String.append_assoc]⟩
  · intro hok
    simp [fetchJson, hok]
  · by_cases hok : resp.ok = true
    · have hfe : fetchJson url resp = resp.body := by simp [fetchJson, hok]
      rw [hfe, hok]
      simp
    · have hok2 : resp.ok = false := by simpa using hok
      have hfe : fetchJson url resp
          = Except.error ("HTTP " ++ toString resp.status ++ ": " ++ url) := by
        simp [fetchJson, hok2]
      rw [hfe, hok2]
      simp

theorem pushStreamEnvelope_length_le (l : List StreamProgressItem)
    (envelope : ChatStreamEnvelope) :
    (pushStreamEnvelope l envelope).length ≤ 8 := by
  unfold pushStreamEnvelope
  simp only [List.length_append, List.length_cons, List.length_nil,
    List.length_drop]
  omega

/-- Claim C10: starting from the empty progress list, after any
non-empty sequence of `pushStreamEnvelope` calls the retained list has
length at most eight, and its last element is the entry built from the
most recently pushed envelope. -/
theorem c10_progress_list_bounded_and_last (es : List ChatStreamEnvelope)
    (h : es ≠ []) :
    (es.foldl pushStreamEnvelope []).length ≤ 8 ∧
    (es.foldl pushStreamEnvelope []).getLast? = some (mkStreamItem (es.getLast h)) := by
  rcases List.eq_nil_or_concat' es with rfl | ⟨front, e, rfl⟩
  · exact absurd rfl h
  · rw [List.foldl_concat]
    refine ⟨pushStreamEnvelope_length_le _ _, ?_⟩
    rw [List.getLast_concat]
    unfold pushStreamEnvelope
    exact List.getLast?_concat _

/-! ## Witnesses -/

theorem c2_run_terminates_witness :
    ({ session_id := "s1" } : SpecSession).running = false ∧
    (runTurn { classified := some Intent.search, classifyFatal := false,
               contentFatal := false, summaryFatal := false }
        "帮我找机厅" "好的" "抱歉" "t0" { session_id := "s1" }).1.turns.countP
        (fun t => t.role == Role.assistant) = 1 := by
  refine ⟨rfl, ?_⟩
  have h := c2_run_terminates_with_one_assistant_turn
    { classified := some Intent.search, classifyFatal := false,
      contentFatal := false, summaryFatal := false }
    "帮我找机厅" "好的" "抱歉" "t0" { session_id := "s1" } rfl
  simpa using h.2.2.2.1

theorem c3_concurrent_runTurn_witness :
    ({ session_id := "s2" } : SpecSession).running = false ∧
    (runTurn { classified := some Intent.navigate, classifyFatal := false,
               contentFatal := false, summaryFatal := false }
        "怎么走" "好的" "抱歉" "t0"
        (acquireRun { session_id := "s2" }).1).2
      = Except.error RunError.concurrencyConflict :=
  ⟨rfl,
    (c3_concurrent_runTurn_conflict
      { classified := some Intent.navigate, classifyFatal := false,
        contentFatal := false, summaryFatal := false }
      "怎么走" "好的" "抱歉" "t0" { session_id := "s2" } rfl).2.2.1⟩

theorem c4_zero_candidates_witness :
    ({ classified := some Intent.search, classifyFatal := false,
        contentFatal := false, summaryFatal := false } : RunEnv).contentFatal
      = false ∧
    (searchStageToolCalls {} []).countP
        (fun c => match c with
          | StageToolCall.summaryCall _ _ => true
          | _ => false) = 1 :=
  ⟨rfl,
    (c4_zero_candidates_single_summary {}
      { classified := some Intent.search, classifyFatal := false,
        contentFatal := false, summaryFatal := false } rfl).1⟩

theorem c5_terminal_closes_witness :
    isTerminalName
        (⟨1, "s3", ChatStreamEventName.assistantCompleted, "t1", {}⟩
          : ChatStreamEnvelope).event = true ∧
    (clientStep { streamLive := true, items := [], activeSubagent := none }
        ⟨1, "s3", ChatStreamEventName.assistantCompleted, "t1", {}⟩).streamLive
      = false :=
  ⟨rfl,
    (c5_terminal_event_closes_stream
      { streamLive := true, items := [], activeSubagent := none }
      ⟨1, "s3", ChatStreamEventName.assistantCompleted, "t1", {}⟩ rfl).1⟩

theorem c9_fetchJson_amended_witness :
    ({ ok := false, status := 404, body := Except.ok Json.null }
        : HttpResponse).ok = false ∧
    fetchJson "http://localhost:8000/api/v1/arcades/17"
        { ok := false, status := 404, body := Except.ok Json.null }
      = Except.error "HTTP 404: http://localhost:8000/api/v1/arcades/17" := by
  refine ⟨rfl, ?_⟩
  have h := (c9_fetchJson_amended "http://localhost:8000/api/v1/arcades/17"
    { ok := false, status := 404, body := Except.ok Json.null }).1 rfl
  simpa using h.1

theorem c10_progress_list_witness :
    ([⟨1, "s4", ChatStreamEventName.sessionStarted, "t1", {}⟩]
        : List ChatStreamEnvelope) ≠ [] ∧
    (([⟨1, "s4", ChatStreamEventName.sessionStarted, "t1", {}⟩]
        : List ChatStreamEnvelope).foldl pushStreamEnvelope []).length ≤ 8 :=
  ⟨by simp,
    (c10_progress_list_bounded_and_last
      [⟨1, "s4", ChatStreamEventName.sessionStarted, "t1", {}⟩] (by simp)).1⟩

end Arcadegent
